import Mathlib

/-!
Verification of the resilience engine in `src/retry_system.py`: the
exponential-backoff calculator (`ExponentialBackoff.calculate_delay`),
the circuit breaker (`CircuitBreaker.call`), the health prober
(`HealthChecker.perform_health_check` statistics update and history cap),
and the retry orchestrator (`RetryManager.execute_with_retry`).

Modelling conventions:
- Python floats are modelled as rationals (`ℚ`); the constants involved
  (0.1, 1.1, 1.0, 2.0, 60.0, ...) are exactly representable.
- `datetime` timestamps are rationals counting seconds; the expression
  `(current_time - self.last_failure_time).seconds` of line 84 reads the
  `seconds` component of a Python `timedelta`, which for a duration `d`
  equals `⌊d⌋ mod 86400` (the whole-second part after removing whole days);
  Lean's `%` on `Int` is Euclidean mod, which agrees with Python's
  floor-mod for the positive modulus 86400.
- `random.uniform(-r, r)` draws are passed in as explicit oracle values.
- The wrapped operation of one `execute_with_retry` call is modelled as a
  function from the 1-based invocation number to `Except ε α` (`.error`
  for a raised fault); the configured tuple `retry_on_exceptions` becomes
  a Boolean predicate on fault kinds.
- Wall-clock readings (`time.time()`, `datetime.now()`) that only feed
  durations recorded in messages are passed as oracle parameters
  (`total_duration`); timestamp/duration bookkeeping fields of
  `RetryAttempt` that no claim touches are not carried.
-/

/-- Fault kinds appearing in the repository's configurations: the default
`retry_on_exceptions` tuple of `RetryConfig` holds the three `requests`
exception types, and `CircuitOpenException` / `ValueError` are kinds
outside that tuple. -/
inductive Fault where
  | connectionError
  | timeoutError
  | httpError
  | circuitOpen
  | valueError
  deriving DecidableEq

/-- The default retryable set `(requests.ConnectionError, requests.Timeout,
requests.HTTPError)` from `RetryConfig.retry_on_exceptions`, as a membership
predicate. -/
def retryableDefault : Fault → Bool
  | Fault.connectionError => true
  | Fault.timeoutError => true
  | Fault.httpError => true
  | Fault.circuitOpen => false
  | Fault.valueError => false

/-! ## Backoff calculator (`ExponentialBackoff`, lines 135–158) -/

/-- Configuration of `ExponentialBackoff.__init__`. -/
structure ExponentialBackoff where
  base_delay : ℚ
  max_delay : ℚ
  exponential_base : ℚ
  jitter : Bool
  deriving DecidableEq

/-- `ExponentialBackoff.calculate_delay` (lines 144–158):
`delay = base_delay * exponential_base ** attempt`, capped by `max_delay`;
if jitter is enabled, the draw `random.uniform(-delay*0.1, delay*0.1)` is
added (passed here as the oracle `jitter_value`); the result is floored at
0.1 seconds. -/
def ExponentialBackoff.calculate_delay (b : ExponentialBackoff) (attempt : Nat)
    (jitter_value : ℚ) : ℚ :=
  let delay := b.base_delay * b.exponential_base ^ attempt
  let capped := min delay b.max_delay
  let jittered := if b.jitter then capped + jitter_value else capped
  max (1 / 10) jittered

/-! ## Circuit breaker (`CircuitBreaker`, lines 62–133) -/

/-- `CircuitState` enum (lines 29–33). -/
inductive CircuitState where
  | CLOSED
  | OPEN
  | HALF_OPEN
  deriving DecidableEq

/-- The whole `CircuitBreaker` object: the constructor parameters
`failure_threshold` and `recovery_timeout`, and the mutable fields
`failure_count`, `last_failure_time`, `state` (lines 65–72). -/
structure CircuitBreaker where
  failure_threshold : Nat
  recovery_timeout : Nat
  failure_count : Nat
  last_failure_time : Option ℚ
  state : CircuitState
  deriving DecidableEq

/-- `CircuitBreaker.__init__`: counters zeroed, no last failure, CLOSED. -/
def CircuitBreaker.init (threshold recovery : Nat) : CircuitBreaker :=
  ⟨threshold, recovery, 0, none, CircuitState.CLOSED⟩

/-- Observable outcome of one `CircuitBreaker.call`: the call was rejected
with `CircuitOpenException` before invoking the operation, or the operation
was invoked and returned / raised. -/
inductive CallOutcome where
  | rejected
  | succeeded
  | failed
  deriving DecidableEq

/-- The `seconds` attribute of a Python `timedelta` of `d` seconds: the
whole-second component after removing whole days, `⌊d⌋ mod 86400`. -/
def timedeltaSeconds (d : ℚ) : Int :=
  Int.floor d % 86400

/-- `CircuitBreaker.call` (lines 77–121) as a state-transition function.
`now` is the `datetime.now()` reading, `opSucceeds` tells whether the
wrapped operation would succeed if invoked (it is consulted only when the
call is admitted).  The OPEN gate (lines 83–89) uses
`(current_time - self.last_failure_time).seconds >= self.recovery_timeout`;
on success the failure counter is reset (lines 97–105); on failure the
counter is incremented, the timestamp stamped, and the circuit opened when
the threshold is reached (lines 109–121). -/
def CircuitBreaker.call (cb : CircuitBreaker) (now : ℚ) (opSucceeds : Bool) :
    CircuitBreaker × CallOutcome :=
  let gate : Option CircuitBreaker :=
    if cb.state = CircuitState.OPEN then
      match cb.last_failure_time with
      | some t =>
        if timedeltaSeconds (now - t) ≥ (cb.recovery_timeout : Int) then
          some { cb with state := CircuitState.HALF_OPEN }
        else
          none
      | none => none
    else
      some cb
  match gate with
  | none => (cb, CallOutcome.rejected)
  | some cb1 =>
    if opSucceeds then
      if cb1.state = CircuitState.HALF_OPEN then
        ({ cb1 with
            state := CircuitState.CLOSED
            failure_count := 0
            last_failure_time := none }, CallOutcome.succeeded)
      else if cb1.failure_count > 0 then
        ({ cb1 with failure_count := 0, last_failure_time := none },
          CallOutcome.succeeded)
      else
        (cb1, CallOutcome.succeeded)
    else
      let fc := cb1.failure_count + 1
      ({ cb1 with
          failure_count := fc
          last_failure_time := some now
          state := if fc ≥ cb1.failure_threshold then CircuitState.OPEN
                   else cb1.state }, CallOutcome.failed)

/-- `k` consecutive failing calls through a freshly constructed breaker,
the `j`-th at time `ts j`. -/
def CircuitBreaker.applyFailures (threshold recovery : Nat) (ts : Nat → ℚ) :
    Nat → CircuitBreaker
  | 0 => CircuitBreaker.init threshold recovery
  | k + 1 =>
    ((CircuitBreaker.applyFailures threshold recovery ts k).call (ts k) false).1

/-! ## Health prober (`HealthChecker`, lines 160–306) -/

/-- The statistics fields of `HealthChecker` updated by
`perform_health_check` (lines 168–174). -/
structure HealthChecker where
  last_check_success : Option Bool
  consecutive_failures : Nat
  consecutive_successes : Nat
  total_checks : Nat
  total_successes : Nat
  deriving DecidableEq

/-- `HealthChecker.__init__`: all counters zero, no check recorded yet. -/
def HealthChecker.initState : HealthChecker :=
  ⟨none, 0, 0, 0, 0⟩

/-- The statistics update of `perform_health_check` (lines 251–262), applied
once per probe with the probe's boolean outcome. -/
def HealthChecker.updateStats (s : HealthChecker) (success : Bool) : HealthChecker :=
  if success then
    { s with
        last_check_success := some true
        total_checks := s.total_checks + 1
        total_successes := s.total_successes + 1
        consecutive_successes := s.consecutive_successes + 1
        consecutive_failures := 0 }
  else
    { s with
        last_check_success := some false
        total_checks := s.total_checks + 1
        consecutive_failures := s.consecutive_failures + 1
        consecutive_successes := 0 }

/-- A sequence of probes applied in order. -/
def HealthChecker.runProbes (s : HealthChecker) (results : List Bool) : HealthChecker :=
  List.foldl HealthChecker.updateStats s results

/-- One entry of `health_history` (the dict built at lines 265–272);
timestamp omitted (wall-clock metadata). -/
structure HealthRecord where
  success : Bool
  duration : ℚ
  error : Option String
  consecutive_failures : Nat
  consecutive_successes : Nat
  deriving DecidableEq

/-- The history append of `perform_health_check` (lines 274–278):
`health_history.append(record)` followed by
`if len(health_history) > max_history: health_history = health_history[-max_history:]`
with `max_history = 100` (line 177). -/
def HealthChecker.appendHealthRecord (h : List HealthRecord) (r : HealthRecord) :
    List HealthRecord :=
  let h1 := h ++ [r]
  if h1.length > 100 then h1.drop (h1.length - 100) else h1

/-! ## Retry orchestrator (`RetryManager`, lines 308–472) -/

/-- One entry of `retry_history` (`RetryAttempt` dataclass, lines 35–45);
the wall-clock fields `timestamp`, `duration` and the free-form `details`
map are not carried. -/
structure RetryAttempt (ε : Type) where
  attempt_number : Nat
  success : Bool
  error : Option ε
  backoff_delay : ℚ
  strategy_used : String
  deriving DecidableEq

/-- The terminal outcome of `execute_with_retry`: the operation's value is
returned, a non-retryable fault is re-raised (`fatal`), or
`RetryExhaustedException` is raised wrapping the last observed fault and
the total elapsed duration (lines 459–467). -/
inductive RetryResult (α ε : Type) where
  | success (value : α)
  | fatal (err : ε)
  | exhausted (last : Option ε) (total_duration : ℚ)
  deriving DecidableEq

/-- What one `execute_with_retry` invocation produces: its terminal result,
the `RetryAttempt` records appended to `retry_history` in order, and the
durations passed to `time.sleep`, in order. -/
structure RetryRun (α ε : Type) where
  result : RetryResult α ε
  history : List (RetryAttempt ε)
  sleeps : List ℚ
  deriving DecidableEq

/-- The `for attempt in range(1, max_attempts + 1)` loop of
`execute_with_retry` (lines 361–467).  `fuel` counts the iterations the
`for` loop still has (initially `max_attempts`, with `attempt` starting
at 1); `lastExc` threads the `last_exception` variable; when the loop runs
out, `RetryExhaustedException` wraps `lastExc` and the total elapsed
duration (the `total_duration` oracle).  A success appends a successful
attempt and returns (lines 366–392); a retryable fault appends a failed
attempt, with `backoff.calculate_delay(attempt - 1)` slept and recorded
only when `attempt < max_attempts` (lines 394–425); any other fault
appends a `no_retry` attempt and re-raises (lines 427–449). -/
def RetryManager.retryLoop {α ε : Type} (max_attempts : Nat) (backoff : Nat → ℚ)
    (retryable : ε → Bool) (op : Nat → Except ε α) (total_duration : ℚ) :
    Nat → Nat → Option ε → RetryRun α ε
  | _attempt, 0, lastExc =>
    ⟨RetryResult.exhausted lastExc total_duration, [], []⟩
  | attempt, fuel + 1, _lastExc =>
    match op attempt with
    | Except.ok v =>
      ⟨RetryResult.success v, [⟨attempt, true, none, 0, "standard_retry"⟩], []⟩
    | Except.error e =>
      if retryable e then
        if attempt < max_attempts then
          let d := backoff (attempt - 1)
          let rest := RetryManager.retryLoop max_attempts backoff retryable op
            total_duration (attempt + 1) fuel (some e)
          ⟨rest.result, ⟨attempt, false, some e, d, "standard_retry"⟩ :: rest.history,
            d :: rest.sleeps⟩
        else
          let rest := RetryManager.retryLoop max_attempts backoff retryable op
            total_duration (attempt + 1) fuel (some e)
          ⟨rest.result, ⟨attempt, false, some e, 0, "standard_retry"⟩ :: rest.history,
            rest.sleeps⟩
      else
        ⟨RetryResult.fatal e, [⟨attempt, false, some e, 0, "no_retry"⟩], []⟩

/-- `RetryManager.execute_with_retry` (lines 353–467): run the retry loop
from attempt 1 with `last_exception = None`. -/
def RetryManager.execute_with_retry {α ε : Type} (max_attempts : Nat)
    (backoff : Nat → ℚ) (retryable : ε → Bool) (op : Nat → Except ε α)
    (total_duration : ℚ) : RetryRun α ε :=
  RetryManager.retryLoop max_attempts backoff retryable op total_duration 1
    max_attempts none

/-- `RetryManager._cleanup_history` (lines 469–472) with
`max_history = 1000` (line 333), applied after each append (lines 386–387,
424–425, 446–447): the composite append-then-truncate step. -/
def RetryManager.recordAttempt (h : List (RetryAttempt Fault))
    (a : RetryAttempt Fault) : List (RetryAttempt Fault) :=
  let h1 := h ++ [a]
  if h1.length > 1000 then h1.drop (h1.length - 1000) else h1

/-! ## Lock-scoping traces (for the concurrency claim)

The lock structure of the two methods is transcribed as event lists:
`CircuitBreaker.call` (lines 79–121) executes `func` at line 94 inside the
`with self.lock:` block opened at line 79, while
`HealthChecker.perform_health_check` (lines 222–280) performs the
`requests.get` probe at lines 230–234 before acquiring `self.lock` at
line 251. -/

/-- Lock and external-call events in source order. -/
inductive EngineEvent where
  | lockAcquire
  | lockRelease
  | invokeOperation
  | networkProbe
  deriving DecidableEq

/-- Event trace of `CircuitBreaker.call`: the whole body, including the
`func(*args, **kwargs)` invocation, sits inside `with self.lock:`. -/
def CircuitBreaker.callEvents : List EngineEvent :=
  [EngineEvent.lockAcquire, EngineEvent.invokeOperation, EngineEvent.lockRelease]

/-- Event trace of `HealthChecker.perform_health_check`: the network probe
runs first, then `with self.lock:` guards the statistics update. -/
def HealthChecker.performHealthCheckEvents : List EngineEvent :=
  [EngineEvent.networkProbe, EngineEvent.lockAcquire, EngineEvent.lockRelease]

/-- Whether some external call (operation invocation or network probe)
occurs while the lock depth is positive. -/
def externalCallUnderLock : List EngineEvent → Nat → Bool
  | [], _ => false
  | EngineEvent.lockAcquire :: es, d => externalCallUnderLock es (d + 1)
  | EngineEvent.lockRelease :: es, d => externalCallUnderLock es (d - 1)
  | EngineEvent.invokeOperation :: es, d => decide (0 < d) || externalCallUnderLock es d
  | EngineEvent.networkProbe :: es, d => decide (0 < d) || externalCallUnderLock es d

/-! ## Concrete instances used by witnesses and exhibits -/

/-- A breaker with the default configuration (threshold 5, recovery 30 s)
that has just opened: five failures, the last at time 0. -/
def cbOpenEx : CircuitBreaker :=
  ⟨5, 30, 5, some 0, CircuitState.OPEN⟩

/-- All-zero oracle (timestamps / jitter draws). -/
def qzero : Nat → ℚ :=
  fun _ => 0

/-- Backoff of the spec's concrete scenario:
`base_delay = 1.0, max_delay = 60.0, exponential_base = 2.0, jitter = false`. -/
def backoffNoJitter : ExponentialBackoff :=
  ⟨1, 60, 2, false⟩

/-- The AdsPower backoff configuration with jitter
(`create_adspower_retry_manager`, lines 578–596, with `max_delay = 30.0`). -/
def backoffJitterEx : ExponentialBackoff :=
  ⟨1, 30, 2, true⟩

/-- A configuration whose `max_delay` is below the 0.1 s floor. -/
def backoffTinyCap : ExponentialBackoff :=
  ⟨1, 1 / 20, 2, false⟩

/-- A configuration with `exponential_base < 1`. -/
def backoffShrinking : ExponentialBackoff :=
  ⟨1, 60, 1 / 2, false⟩

/-- A configuration with a negative `base_delay`. -/
def backoffNegBase : ExponentialBackoff :=
  ⟨-1, 60, 2, false⟩

/-- Operation failing with a retryable fault on invocations 1 and 2 and
returning 42 on invocation 3 (the spec's concrete scenario). -/
def opFailTwice : Nat → Except Fault Nat :=
  fun k => if k ≤ 2 then Except.error Fault.connectionError else Except.ok 42

/-- Constant error function for the scenario above. -/
def errsConn : Nat → Fault :=
  fun _ => Fault.connectionError

/-- Operation raising a retryable fault on every invocation. -/
def opAlwaysTimeout : Nat → Except Fault Nat :=
  fun _ => Except.error Fault.timeoutError

/-- Constant error function for the always-failing operation. -/
def errsTimeout : Nat → Fault :=
  fun _ => Fault.timeoutError

/-- Operation whose first invocation surfaces `CircuitOpenException`,
a kind outside the default retryable set. -/
def opCircuitRejected : Nat → Except Fault Nat :=
  fun _ => Except.error Fault.circuitOpen

/-- A sample successful attempt record. -/
def attemptEx : RetryAttempt Fault :=
  ⟨1, true, none, 0, "standard_retry"⟩

/-- A sample successful health record. -/
def healthRecEx : HealthRecord :=
  ⟨true, 1, none, 0, 1⟩

/-! ## Helper lemmas -/

/-- For a non-negative duration below the (integral) recovery timeout, the
`timedelta.seconds` component is also below the timeout. -/
theorem timedeltaSeconds_lt_of_lt (d : ℚ) (rt : Nat) (h0 : 0 ≤ d)
    (h1 : d < (rt : ℚ)) : timedeltaSeconds d < (rt : Int) := by
  unfold timedeltaSeconds
  have hf0 : 0 ≤ Int.floor d := Int.floor_nonneg.mpr h0
  have hflt : Int.floor d < (rt : Int) := by
    rw [Int.floor_lt]
    exact_mod_cast h1
  omega

/-- An OPEN breaker whose gate condition fails returns itself with a
rejection. -/
theorem CircuitBreaker.call_reject (cb : CircuitBreaker) (now : ℚ) (b : Bool)
    (hst : cb.state = CircuitState.OPEN)
    (hgate : ∀ t, cb.last_failure_time = some t →
      ¬ timedeltaSeconds (now - t) ≥ (cb.recovery_timeout : Int)) :
    cb.call now b = (cb, CallOutcome.rejected) := by
  unfold CircuitBreaker.call
  cases hlf : cb.last_failure_time with
  | none => simp [hst, hlf]
  | some t => simp [hst, hlf, hgate t hlf]

/-- After `k ≤ threshold` consecutive failures (with `threshold ≥ 1`), the
breaker counts `k` failures and is CLOSED below the threshold, OPEN at it. -/
theorem CircuitBreaker.applyFailures_spec (threshold recovery : Nat)
    (ts : Nat → ℚ) (hth : 1 ≤ threshold) :
    ∀ k, k ≤ threshold →
      (CircuitBreaker.applyFailures threshold recovery ts k).failure_threshold
          = threshold ∧
      (CircuitBreaker.applyFailures threshold recovery ts k).failure_count = k ∧
      (CircuitBreaker.applyFailures threshold recovery ts k).state =
        (if k < threshold then CircuitState.CLOSED else CircuitState.OPEN) := by
  intro k
  induction k with
  | zero =>
    intro _
    refine ⟨rfl, rfl, ?_⟩
    rw [if_pos (by omega)]
    rfl
  | succ k ih =>
    intro hk
    obtain ⟨h1, h2, h3⟩ := ih (by omega)
    have hclosed :
        (CircuitBreaker.applyFailures threshold recovery ts k).state
          = CircuitState.CLOSED := by
      rw [h3, if_pos (by omega)]
    simp only [CircuitBreaker.applyFailures, CircuitBreaker.call, hclosed, h1, h2]
    simp only [reduceCtorEq, if_neg, ite_false]
    refine ⟨?_, ?_, ?_⟩
    · exact h1
    · omega
    · rw [h1, h2, hclosed]
      by_cases hc : threshold ≤ k + 1
      · rw [if_pos (by omega), if_neg (by omega)]
      · rw [if_neg (by omega), if_pos (by omega)]

/-! ## Claims about the circuit breaker -/

/-- Claim C3: while the breaker is OPEN and the elapsed time since the last
failure is below `recovery_timeout`, `CircuitBreaker.call` rejects the call
(raising `CircuitOpenException`) without invoking the wrapped operation —
the result does not depend on what the operation would have done and the
breaker is returned unchanged; and starting from a fresh breaker, the OPEN
state is reached after exactly `threshold` consecutive failures: CLOSED
after every shorter run, OPEN at the threshold. -/
theorem circuitBreaker_open_fast_fail_and_threshold
    (cb : CircuitBreaker) (t now : ℚ) (b b' : Bool)
    (hst : cb.state = CircuitState.OPEN)
    (hlf : cb.last_failure_time = some t)
    (h0 : 0 ≤ now - t) (h1 : now - t < (cb.recovery_timeout : ℚ))
    (threshold recovery : Nat) (hth : 1 ≤ threshold) (ts : Nat → ℚ) :
    cb.call now b = (cb, CallOutcome.rejected) ∧
    cb.call now b = cb.call now b' ∧
    (CircuitBreaker.applyFailures threshold recovery ts threshold).state
      = CircuitState.OPEN ∧
    ∀ k, k < threshold →
      (CircuitBreaker.applyFailures threshold recovery ts k).state
        = CircuitState.CLOSED := by
  have hrej : ∀ c : Bool, cb.call now c = (cb, CallOutcome.rejected) := by
    intro c
    refine CircuitBreaker.call_reject cb now c hst ?_
    intro t' ht'
    rw [hlf] at ht'
    cases ht'
    exact not_le.mpr (timedeltaSeconds_lt_of_lt (now - t) cb.recovery_timeout h0 h1)
  refine ⟨hrej b, (hrej b).trans (hrej b').symm, ?_, ?_⟩
  · obtain ⟨-, -, h3⟩ :=
      CircuitBreaker.applyFailures_spec threshold recovery ts hth threshold le_rfl
    rw [h3, if_neg (by omega)]
  · intro k hk
    obtain ⟨-, -, h3⟩ :=
      CircuitBreaker.applyFailures_spec threshold recovery ts hth k (by omega)
    rw [h3, if_pos hk]

/-- Witness for C3: the freshly opened default breaker `cbOpenEx` (last
failure at time 0) rejects a call at time 10 regardless of the operation,
unchanged; and with the default threshold 5, five consecutive failures
open a fresh breaker while four leave it CLOSED. -/
theorem circuitBreaker_open_fast_fail_and_threshold_witness :
    cbOpenEx.call 10 true = (cbOpenEx, CallOutcome.rejected) ∧
    cbOpenEx.call 10 true = cbOpenEx.call 10 false ∧
    (CircuitBreaker.applyFailures 5 30 qzero 5).state = CircuitState.OPEN ∧
    (CircuitBreaker.applyFailures 5 30 qzero 4).state = CircuitState.CLOSED := by
  have h := circuitBreaker_open_fast_fail_and_threshold cbOpenEx 0 10 true false
    rfl rfl (by norm_num) (by norm_num [cbOpenEx]) 5 30 (by norm_num) qzero
  exact ⟨h.1, h.2.1, h.2.2.1, h.2.2.2 4 (by norm_num)⟩

/-- Claim C4 (code-bug exhibit): the OPEN→HALF_OPEN gate at line 84 compares
`(current_time - self.last_failure_time).seconds` — the sub-day `seconds`
component of the timedelta — instead of `.total_seconds()`.  For the default
breaker opened at time 0, a call 86410 s later (one full day plus 10 s,
far beyond the 30 s recovery timeout) is still rejected and the breaker
stays OPEN, while a call only 40 s after the failure does recover (the
probe runs and, succeeding, closes the breaker). -/
theorem circuitBreaker_recovery_day_wrap_bug :
    cbOpenEx.call 86410 true = (cbOpenEx, CallOutcome.rejected) ∧
    (cbOpenEx.recovery_timeout : ℚ) ≤ 86410 - 0 ∧
    (cbOpenEx.call 40 true).1.state = CircuitState.CLOSED ∧
    (cbOpenEx.call 40 true).2 = CallOutcome.succeeded := by
  have h10 : timedeltaSeconds (86410 : ℚ) = 10 := by norm_num [timedeltaSeconds]
  have h40 : timedeltaSeconds (40 : ℚ) = 40 := by norm_num [timedeltaSeconds]
  refine ⟨?_, by norm_num [cbOpenEx], ?_, ?_⟩
  · simp [CircuitBreaker.call, cbOpenEx, h10]
  · simp [CircuitBreaker.call, cbOpenEx, h40]
  · simp [CircuitBreaker.call, cbOpenEx, h40]

/-- Claim C10: whenever `CircuitBreaker.call` rejects a call while OPEN,
the breaker object is returned entirely unchanged — in particular `state`,
`failure_count` and `last_failure_time` — so a fast-fail rejection is never
counted as a failure. -/
theorem circuitBreaker_reject_frame (cb : CircuitBreaker) (now : ℚ) (b : Bool)
    (hst : cb.state = CircuitState.OPEN)
    (hrej : (cb.call now b).2 = CallOutcome.rejected) :
    (cb.call now b).1 = cb ∧
    (cb.call now b).1.state = cb.state ∧
    (cb.call now b).1.failure_count = cb.failure_count ∧
    (cb.call now b).1.last_failure_time = cb.last_failure_time := by
  have hfst : (cb.call now b).1 = cb := by
    unfold CircuitBreaker.call at hrej ⊢
    cases hlf : cb.last_failure_time with
    | none => simp [hst, hlf]
    | some t =>
      by_cases hc : timedeltaSeconds (now - t) ≥ (cb.recovery_timeout : Int)
      · exfalso
        cases b <;> simp [hst, hlf, hc] at hrej
      · simp [hst, hlf, hc]
  exact ⟨hfst, by rw [hfst], by rw [hfst], by rw [hfst]⟩

/-- Witness for C10: the rejected call at time 10 on the freshly opened
default breaker leaves every field as it was. -/
theorem circuitBreaker_reject_frame_witness :
    (cbOpenEx.call 10 true).1 = cbOpenEx ∧
    (cbOpenEx.call 10 true).1.state = cbOpenEx.state ∧
    (cbOpenEx.call 10 true).1.failure_count = cbOpenEx.failure_count ∧
    (cbOpenEx.call 10 true).1.last_failure_time = cbOpenEx.last_failure_time := by
  refine circuitBreaker_reject_frame cbOpenEx 10 true rfl ?_
  have h10 : timedeltaSeconds (10 : ℚ) = 10 := by norm_num [timedeltaSeconds]
  simp [CircuitBreaker.call, cbOpenEx, h10]

/-- Run of `m` retryable failures from `attempt`, then a success: the loop
returns the success value, appends `m` failed records and one successful
one, and sleeps once per failure with the backoff of `attempt - 1`. -/
theorem RetryManager.retryLoop_run_of_failures {α ε : Type}
    (maxA : Nat) (backoff : Nat → ℚ) (retryable : ε → Bool)
    (op : Nat → Except ε α) (td : ℚ) (errs : Nat → ε) (v : α) :
    ∀ (m attempt fuel : Nat) (lastE : Option ε),
      1 ≤ attempt →
      (∀ k, attempt ≤ k → k < attempt + m → op k = Except.error (errs k)) →
      (∀ k, attempt ≤ k → k < attempt + m → retryable (errs k) = true) →
      op (attempt + m) = Except.ok v →
      attempt + m ≤ maxA →
      m < fuel →
      (RetryManager.retryLoop maxA backoff retryable op td attempt fuel lastE).result
          = RetryResult.success v ∧
      (RetryManager.retryLoop maxA backoff retryable op td attempt fuel
          lastE).history.map (fun a => a.success)
          = List.replicate m false ++ [true] ∧
      (RetryManager.retryLoop maxA backoff retryable op td attempt fuel lastE).sleeps
          = (List.range m).map (fun i => backoff (attempt - 1 + i)) := by
  intro m
  induction m with
  | zero =>
    intro attempt fuel lastE _h1 _hf _hr hok _hle hfuel
    obtain ⟨fuel, rfl⟩ : ∃ f, fuel = f + 1 := ⟨fuel - 1, by omega⟩
    rw [Nat.add_zero] at hok
    simp [RetryManager.retryLoop, hok]
  | succ m ih =>
    intro attempt fuel lastE h1 hf hr hok hle hfuel
    obtain ⟨fuel, rfl⟩ : ∃ f, fuel = f + 1 := ⟨fuel - 1, by omega⟩
    have hopa : op attempt = Except.error (errs attempt) := hf attempt le_rfl (by omega)
    have hra : retryable (errs attempt) = true := hr attempt le_rfl (by omega)
    have hlt : attempt < maxA := by omega
    obtain ⟨ih1, ih2, ih3⟩ := ih (attempt + 1) fuel (some (errs attempt)) (by omega)
      (fun k hk1 hk2 => hf k (by omega) (by omega))
      (fun k hk1 hk2 => hr k (by omega) (by omega))
      (by rw [show attempt + 1 + m = attempt + (m + 1) by omega]; exact hok)
      (by omega) (by omega)
    refine ⟨?_, ?_, ?_⟩
    · simp [RetryManager.retryLoop, hopa, hra, hlt, ih1]
    · simp [RetryManager.retryLoop, hopa, hra, hlt, ih2, List.replicate_succ]
    · simp only [RetryManager.retryLoop, hopa, hra, hlt, if_pos, if_true]
      rw [List.range_succ_eq_map, List.map_cons, List.map_map]
      simp only [ih3]
      have htail : List.map ((fun i => backoff (attempt - 1 + i)) ∘ Nat.succ)
          (List.range m) = List.map (fun i => backoff (attempt + 1 - 1 + i))
          (List.range m) := by
        congr 1
        funext i
        simp only [Function.comp_apply]
        congr 1
        omega
      rw [htail]
      simp

/-- Claim C1: for an operation raising a retryable fault on its first `m`
invocations and succeeding on invocation `m + 1`, with `m < max_attempts`,
`execute_with_retry` returns the success value, records exactly `m + 1`
attempts (success flags false for the first `m`, true for the last), and
sleeps exactly `m` times, the sleep before retry number `attempt + 1` being
`calculate_delay(attempt - 1)` — i.e. the sleeps are
`calculate_delay 0, ..., calculate_delay (m-1)`. -/
theorem execute_with_retry_eventual_success {α ε : Type}
    (cfg : ExponentialBackoff) (js : Nat → ℚ) (maxA m : Nat)
    (retryable : ε → Bool) (op : Nat → Except ε α) (errs : Nat → ε) (v : α) (td : ℚ)
    (hm : m < maxA)
    (hfail : ∀ k, 1 ≤ k → k ≤ m → op k = Except.error (errs k))
    (hret : ∀ k, 1 ≤ k → k ≤ m → retryable (errs k) = true)
    (hok : op (m + 1) = Except.ok v) :
    (RetryManager.execute_with_retry maxA (fun n => cfg.calculate_delay n (js n))
        retryable op td).result = RetryResult.success v ∧
    (RetryManager.execute_with_retry maxA (fun n => cfg.calculate_delay n (js n))
        retryable op td).history.length = m + 1 ∧
    (RetryManager.execute_with_retry maxA (fun n => cfg.calculate_delay n (js n))
        retryable op td).history.map (fun a => a.success)
        = List.replicate m false ++ [true] ∧
    (RetryManager.execute_with_retry maxA (fun n => cfg.calculate_delay n (js n))
        retryable op td).sleeps
        = (List.range m).map (fun i => cfg.calculate_delay i (js i)) := by
  obtain ⟨h1, h2, h3⟩ := RetryManager.retryLoop_run_of_failures maxA
    (fun n => cfg.calculate_delay n (js n)) retryable op td errs v m 1 maxA none
    le_rfl (fun k hk1 hk2 => hfail k hk1 (by omega))
    (fun k hk1 hk2 => hret k hk1 (by omega))
    (by rw [Nat.add_comm]; exact hok) (by omega) (by omega)
  have hlen : (RetryManager.execute_with_retry maxA
      (fun n => cfg.calculate_delay n (js n)) retryable op td).history.length
      = m + 1 := by
    have := congrArg List.length h2
    simpa [RetryManager.execute_with_retry] using this
  refine ⟨h1, hlen, h2, ?_⟩
  rw [RetryManager.execute_with_retry, h3]
  simp

/-- Witness for C1 — the spec's concrete scenario: `max_attempts = 3`,
`base_delay = 1.0`, `exponential_base = 2.0`, `jitter = false`, retryable
failures on calls 1 and 2, success (42) on call 3: the value is returned,
the success flags are `[false, false, true]`, and the sleeps are 1.0 s then
2.0 s. -/
theorem execute_with_retry_eventual_success_witness :
    (RetryManager.execute_with_retry 3
        (fun n => backoffNoJitter.calculate_delay n (qzero n))
        retryableDefault opFailTwice 0).result = RetryResult.success 42 ∧
    (RetryManager.execute_with_retry 3
        (fun n => backoffNoJitter.calculate_delay n (qzero n))
        retryableDefault opFailTwice 0).history.length = 3 ∧
    (RetryManager.execute_with_retry 3
        (fun n => backoffNoJitter.calculate_delay n (qzero n))
        retryableDefault opFailTwice 0).history.map (fun a => a.success)
        = [false, false, true] ∧
    (RetryManager.execute_with_retry 3
        (fun n => backoffNoJitter.calculate_delay n (qzero n))
        retryableDefault opFailTwice 0).sleeps = [1, 2] := by
  obtain ⟨h1, h2, h3, h4⟩ := execute_with_retry_eventual_success backoffNoJitter
    qzero 3 2 retryableDefault opFailTwice errsConn 42 0 (by norm_num)
    (fun k _hk1 hk2 => by simp [opFailTwice, errsConn, hk2])
    (fun k _hk1 _hk2 => rfl) (by simp [opFailTwice])
  refine ⟨h1, h2, ?_, ?_⟩
  · rw [h3]
    rfl
  · rw [h4]
    norm_num [ExponentialBackoff.calculate_delay, backoffNoJitter, qzero,
      List.range_succ]

/-- Run of retryable failures filling the whole loop: at exhaustion the
result wraps the fault of attempt `max_attempts` and the elapsed-time
reading; one attempt record per iteration, all failed; one sleep per
iteration except the last. -/
theorem RetryManager.retryLoop_all_failures {α ε : Type}
    (maxA : Nat) (backoff : Nat → ℚ) (retryable : ε → Bool)
    (op : Nat → Except ε α) (td : ℚ) (errs : Nat → ε)
    (hall : ∀ k, op k = Except.error (errs k))
    (hret : ∀ k, retryable (errs k) = true) :
    ∀ (fuel attempt : Nat) (lastE : Option ε),
      attempt + fuel = maxA + 1 → 1 ≤ attempt → 1 ≤ fuel →
      (RetryManager.retryLoop maxA backoff retryable op td attempt fuel lastE).result
          = RetryResult.exhausted (some (errs maxA)) td ∧
      (RetryManager.retryLoop maxA backoff retryable op td attempt fuel
          lastE).history.length = fuel ∧
      (∀ a ∈ (RetryManager.retryLoop maxA backoff retryable op td attempt fuel
          lastE).history, a.success = false) ∧
      (RetryManager.retryLoop maxA backoff retryable op td attempt fuel
          lastE).sleeps.length = fuel - 1 := by
  intro fuel
  induction fuel with
  | zero =>
    intro attempt lastE _h1 _h2 h3
    exact absurd h3 (by omega)
  | succ f ih =>
    intro attempt lastE hsum h2 _h3
    have hopa := hall attempt
    have hra := hret attempt
    by_cases hf : f = 0
    · subst hf
      have ha : attempt = maxA := by omega
      subst ha
      have hnlt : ¬ attempt < attempt := by omega
      simp [RetryManager.retryLoop, hopa, hra, hnlt]
    · have hlt : attempt < maxA := by omega
      obtain ⟨ih1, ih2, ih3, ih4⟩ := ih (attempt + 1) (some (errs attempt))
        (by omega) (by omega) (by omega)
      refine ⟨?_, ?_, ?_, ?_⟩
      · simp [RetryManager.retryLoop, hopa, hra, hlt, ih1]
      · simp [RetryManager.retryLoop, hopa, hra, hlt, ih2]
      · intro a ha
        simp only [RetryManager.retryLoop, hopa, hra, hlt, if_true,
          List.mem_cons] at ha
        rcases ha with ha | ha
        · rw [ha]
        · exact ih3 a ha
      · simp only [RetryManager.retryLoop, hopa, hra, hlt, if_true]
        simp [ih4]
        omega

/-- Claim C2: for an operation raising a retryable fault on every
invocation, `execute_with_retry` ends in `RetryExhaustedException` after
exactly `max_attempts` invocations, wrapping the last observed fault and
the total elapsed duration, with every recorded attempt failed and no
sleep after the final attempt — exactly `max_attempts - 1` sleeps. -/
theorem execute_with_retry_exhaustion {α ε : Type}
    (maxA : Nat) (backoff : Nat → ℚ) (retryable : ε → Bool)
    (op : Nat → Except ε α) (errs : Nat → ε) (td : ℚ)
    (hmax : 1 ≤ maxA)
    (hall : ∀ k, op k = Except.error (errs k))
    (hret : ∀ k, retryable (errs k) = true) :
    (RetryManager.execute_with_retry maxA backoff retryable op td).result
        = RetryResult.exhausted (some (errs maxA)) td ∧
    (RetryManager.execute_with_retry maxA backoff retryable op td).history.length
        = maxA ∧
    (∀ a ∈ (RetryManager.execute_with_retry maxA backoff retryable op td).history,
        a.success = false) ∧
    (RetryManager.execute_with_retry maxA backoff retryable op td).sleeps.length
        = maxA - 1 := by
  exact RetryManager.retryLoop_all_failures maxA backoff retryable op td errs
    hall hret maxA 1 none (by omega) le_rfl hmax

/-- Witness for C2: with `max_attempts = 3` and an operation that always
times out, the run ends exhausted wrapping the timeout fault and the
elapsed reading 7, after 3 recorded attempts and 2 sleeps. -/
theorem execute_with_retry_exhaustion_witness :
    (RetryManager.execute_with_retry 3 qzero retryableDefault opAlwaysTimeout
        7).result = RetryResult.exhausted (some Fault.timeoutError) 7 ∧
    (RetryManager.execute_with_retry 3 qzero retryableDefault opAlwaysTimeout
        7).history.length = 3 ∧
    (RetryManager.execute_with_retry 3 qzero retryableDefault opAlwaysTimeout
        7).sleeps.length = 2 := by
  obtain ⟨h1, h2, _h3, h4⟩ := execute_with_retry_exhaustion 3 qzero
    retryableDefault opAlwaysTimeout errsTimeout 7 (by norm_num)
    (fun _ => rfl) (fun _ => rfl)
  exact ⟨h1, h2, h4⟩

/-- Claim C5: an operation whose first invocation raises a fault outside
the configured retryable set (for instance `CircuitOpenException` surfaced
from the breaker) is re-raised immediately: exactly one recorded attempt,
marked non-retryable (`no_retry` strategy), and no sleep. -/
theorem execute_with_retry_fatal_first {α ε : Type}
    (maxA : Nat) (backoff : Nat → ℚ) (retryable : ε → Bool)
    (op : Nat → Except ε α) (e : ε) (td : ℚ)
    (hmax : 1 ≤ maxA)
    (hop : op 1 = Except.error e)
    (hfatal : retryable e = false) :
    (RetryManager.execute_with_retry maxA backoff retryable op td).result
        = RetryResult.fatal e ∧
    (RetryManager.execute_with_retry maxA backoff retryable op td).history
        = [⟨1, false, some e, 0, "no_retry"⟩] ∧
    (RetryManager.execute_with_retry maxA backoff retryable op td).sleeps = [] := by
  obtain ⟨f, rfl⟩ : ∃ f, maxA = f + 1 := ⟨maxA - 1, by omega⟩
  simp [RetryManager.execute_with_retry, RetryManager.retryLoop, hop, hfatal]

/-- Witness for C5: with the default configuration (`max_attempts = 10`,
default retryable set) and an operation rejected by an OPEN breaker on its
first invocation, the fault propagates at once with one `no_retry` record
and zero sleeps. -/
theorem execute_with_retry_fatal_first_witness :
    (RetryManager.execute_with_retry 10 qzero retryableDefault
        opCircuitRejected 0).result = RetryResult.fatal Fault.circuitOpen ∧
    (RetryManager.execute_with_retry 10 qzero retryableDefault
        opCircuitRejected 0).history
        = [⟨1, false, some Fault.circuitOpen, 0, "no_retry"⟩] ∧
    (RetryManager.execute_with_retry 10 qzero retryableDefault
        opCircuitRejected 0).sleeps = [] := by
  exact execute_with_retry_fatal_first 10 qzero retryableDefault
    opCircuitRejected Fault.circuitOpen 0 (by norm_num) rfl rfl

/-! ## Claims about the backoff calculator, histories, prober, locks -/

/-- Claim C7 counterexample: the stated bounds do not hold for every
configuration.  With `max_delay = 1/20` the floored result 0.1 exceeds
`max_delay * 1.1`; with `exponential_base = 1/2`, and likewise with a
negative `base_delay`, the un-jittered un-capped delay
`base_delay * exponential_base ^ n` strictly decreases from `n = 0` to
`n = 1`. -/
theorem calculate_delay_bounds_counterexample :
    ¬ (ExponentialBackoff.calculate_delay backoffTinyCap 0 0
        ≤ backoffTinyCap.max_delay * (11 / 10)) ∧
    ¬ (backoffShrinking.base_delay * backoffShrinking.exponential_base ^ (0 : Nat)
        ≤ backoffShrinking.base_delay * backoffShrinking.exponential_base ^ (1 : Nat)) ∧
    ¬ (backoffNegBase.base_delay * backoffNegBase.exponential_base ^ (0 : Nat)
        ≤ backoffNegBase.base_delay * backoffNegBase.exponential_base ^ (1 : Nat)) := by
  refine ⟨?_, ?_, ?_⟩
  · norm_num [ExponentialBackoff.calculate_delay, backoffTinyCap]
  · norm_num [backoffShrinking]
  · norm_num [backoffNegBase]

/-- Claim C7 (amended): for every configuration with non-negative
`base_delay`, `exponential_base ≥ 1` and `max_delay ≥ 1/11` (so that the
0.1 s floor itself fits below `max_delay × 1.1`), and every jitter draw in
the `uniform(-delay*0.1, delay*0.1)` range, `calculate_delay n` lies in
`[0.1, max_delay × 1.1]`, and the un-jittered un-capped delay
`base_delay × exponential_base ^ n` is non-decreasing in `n`. -/
theorem calculate_delay_bounds (b : ExponentialBackoff) (n : Nat) (j : ℚ)
    (hb : 0 ≤ b.base_delay) (he : 1 ≤ b.exponential_base)
    (hm : 1 / 11 ≤ b.max_delay)
    (hj : |j| ≤ |min (b.base_delay * b.exponential_base ^ n) b.max_delay| / 10) :
    1 / 10 ≤ b.calculate_delay n j ∧
    b.calculate_delay n j ≤ b.max_delay * (11 / 10) ∧
    b.base_delay * b.exponential_base ^ n
      ≤ b.base_delay * b.exponential_base ^ (n + 1) := by
  have he0 : (0 : ℚ) ≤ b.exponential_base := by linarith
  have hpow : (0 : ℚ) ≤ b.base_delay * b.exponential_base ^ n :=
    mul_nonneg hb (pow_nonneg he0 n)
  set D := min (b.base_delay * b.exponential_base ^ n) b.max_delay with hD
  have hD0 : 0 ≤ D := le_min hpow (by linarith)
  have hDm : D ≤ b.max_delay := min_le_right _ _
  rw [abs_of_nonneg hD0] at hj
  have hj2 : j ≤ D / 10 := (abs_le.mp hj).2
  have hcalc : b.calculate_delay n j
      = max (1 / 10) (if b.jitter = true then D + j else D) := rfl
  refine ⟨?_, ?_, ?_⟩
  · rw [hcalc]
    exact le_max_left _ _
  · rw [hcalc]
    have hfit : (1 : ℚ) / 10 ≤ b.max_delay * (11 / 10) := by nlinarith
    cases hjit : b.jitter
    · simp only [Bool.false_eq_true, if_false]
      exact max_le hfit (by nlinarith)
    · simp only [if_true]
      exact max_le hfit (by nlinarith)
  · exact mul_le_mul_of_nonneg_left (pow_le_pow_right₀ he (Nat.le_succ n)) hb

/-- Witness for C7 (amended): the AdsPower configuration with jitter,
attempt 2, jitter draw 0.1 (within ±10% of the capped delay 4): the delay
lies in `[0.1, 33]` and the raw exponential is monotone from `2^2` to
`2^3`. -/
theorem calculate_delay_bounds_witness :
    1 / 10 ≤ backoffJitterEx.calculate_delay 2 (1 / 10) ∧
    backoffJitterEx.calculate_delay 2 (1 / 10)
      ≤ backoffJitterEx.max_delay * (11 / 10) ∧
    backoffJitterEx.base_delay * backoffJitterEx.exponential_base ^ 2
      ≤ backoffJitterEx.base_delay * backoffJitterEx.exponential_base ^ 3 := by
  exact calculate_delay_bounds backoffJitterEx 2 (1 / 10)
    (by norm_num [backoffJitterEx]) (by norm_num [backoffJitterEx])
    (by norm_num [backoffJitterEx])
    (by rw [abs_of_nonneg (by norm_num)]; norm_num [backoffJitterEx])

/-- Claim C8: one append step never leaves either history buffer above its
cap — 1000 entries for the retry history, 100 for the health history — and
when an append would exceed the cap, exactly the oldest entries are
evicted: the result is the suffix of `old ++ [new]` dropping its first
`length - cap` elements, for buffers of any size. -/
theorem history_buffers_bounded (h : List (RetryAttempt Fault))
    (a : RetryAttempt Fault) (hh : List HealthRecord) (r : HealthRecord) :
    (RetryManager.recordAttempt h a).length ≤ 1000 ∧
    RetryManager.recordAttempt h a
      = (h ++ [a]).drop ((h ++ [a]).length - 1000) ∧
    (HealthChecker.appendHealthRecord hh r).length ≤ 100 ∧
    HealthChecker.appendHealthRecord hh r
      = (hh ++ [r]).drop ((hh ++ [r]).length - 100) := by
  have hrec : RetryManager.recordAttempt h a
      = if (h ++ [a]).length > 1000 then
          (h ++ [a]).drop ((h ++ [a]).length - 1000)
        else h ++ [a] := rfl
  have hhec : HealthChecker.appendHealthRecord hh r
      = if (hh ++ [r]).length > 100 then
          (hh ++ [r]).drop ((hh ++ [r]).length - 100)
        else hh ++ [r] := rfl
  refine ⟨?_, ?_, ?_, ?_⟩
  · rw [hrec]
    split_ifs with hc
    · rw [List.length_drop]
      omega
    · omega
  · rw [hrec]
    split_ifs with hc
    · rfl
    · have h0 : (h ++ [a]).length - 1000 = 0 := by omega
      rw [h0, List.drop_zero]
  · rw [hhec]
    split_ifs with hc
    · rw [List.length_drop]
      omega
    · omega
  · rw [hhec]
    split_ifs with hc
    · rfl
    · have h0 : (hh ++ [r]).length - 100 = 0 := by omega
      rw [h0, List.drop_zero]

/-- After `N ≥ 0` failing probes the failure streak grows by `N` and the
success streak is zeroed (unless `N = 0`). -/
theorem HealthChecker.runProbes_replicate_false (N : Nat) :
    ∀ s : HealthChecker,
      (HealthChecker.runProbes s (List.replicate N false)).consecutive_failures
          = s.consecutive_failures + N ∧
      (HealthChecker.runProbes s (List.replicate N false)).consecutive_successes
          = (if N = 0 then s.consecutive_successes else 0) := by
  induction N with
  | zero =>
    intro s
    simp [HealthChecker.runProbes]
  | succ n ih =>
    intro s
    obtain ⟨ih1, ih2⟩ := ih (HealthChecker.updateStats s false)
    rw [List.replicate_succ]
    simp only [HealthChecker.runProbes, List.foldl_cons] at ih1 ih2 ⊢
    refine ⟨?_, ?_⟩
    · rw [ih1]
      simp [HealthChecker.updateStats]
      omega
    · rw [ih2]
      by_cases hn : n = 0 <;> simp [hn, HealthChecker.updateStats]

/-- Claim C9: the prober's streak counters are mutually exclusive.
Starting from any state whose failure streak is 0 (the initial state, or
the state right after a success), `N ≥ 1` consecutive failing probes leave
`consecutive_failures = N` and `consecutive_successes = 0`; one successful
probe resets `consecutive_failures` to 0, one failing probe resets
`consecutive_successes` to 0, and after any single update at least one of
the two counters is 0. -/
theorem health_counters_mutually_exclusive (s : HealthChecker) (N : Nat)
    (hs : s.consecutive_failures = 0) (hN : 1 ≤ N) :
    (HealthChecker.runProbes s (List.replicate N false)).consecutive_failures
        = N ∧
    (HealthChecker.runProbes s (List.replicate N false)).consecutive_successes
        = 0 ∧
    (∀ s2 : HealthChecker,
        (HealthChecker.updateStats s2 true).consecutive_failures = 0) ∧
    (∀ s2 : HealthChecker,
        (HealthChecker.updateStats s2 false).consecutive_successes = 0) ∧
    (∀ (s2 : HealthChecker) (b : Bool),
        (HealthChecker.updateStats s2 b).consecutive_failures = 0 ∨
        (HealthChecker.updateStats s2 b).consecutive_successes = 0) := by
  obtain ⟨h1, h2⟩ := HealthChecker.runProbes_replicate_false N s
  refine ⟨?_, ?_, ?_, ?_, ?_⟩
  · rw [h1, hs]
    omega
  · rw [h2, if_neg (by omega)]
  · intro s2
    simp [HealthChecker.updateStats]
  · intro s2
    simp [HealthChecker.updateStats]
  · intro s2 b
    cases b
    · right
      simp [HealthChecker.updateStats]
    · left
      simp [HealthChecker.updateStats]

/-- Witness for C9: from the freshly initialised prober, three failing
probes give streaks (3, 0); a success on the initial state keeps the
failure streak at 0 and a failure keeps the success streak at 0. -/
theorem health_counters_mutually_exclusive_witness :
    (HealthChecker.runProbes HealthChecker.initState
        (List.replicate 3 false)).consecutive_failures = 3 ∧
    (HealthChecker.runProbes HealthChecker.initState
        (List.replicate 3 false)).consecutive_successes = 0 ∧
    (HealthChecker.updateStats HealthChecker.initState true).consecutive_failures
        = 0 ∧
    (HealthChecker.updateStats HealthChecker.initState false).consecutive_successes
        = 0 := by
  obtain ⟨h1, h2, h3, h4, _h5⟩ := health_counters_mutually_exclusive
    HealthChecker.initState 3 rfl (by norm_num)
  exact ⟨h1, h2, h3 HealthChecker.initState, h4 HealthChecker.initState⟩

/-- Claim C6 counterexample: in `CircuitBreaker.call` the wrapped operation
is invoked at line 94 inside the `with self.lock:` block opened at line 79,
so the breaker's lock IS held across the invocation — the claim that it
never is fails on the breaker. -/
theorem lock_scope_counterexample :
    ¬ (externalCallUnderLock CircuitBreaker.callEvents 0 = false) := by
  decide

/-- Claim C6 (amended): the Health Prober performs its network probe
outside its lock (the lock guards only the statistics update), but the
Circuit Breaker holds its lock across the invocation of the wrapped
operation. -/
theorem lock_scope_amended :
    externalCallUnderLock CircuitBreaker.callEvents 0 = true ∧
    externalCallUnderLock HealthChecker.performHealthCheckEvents 0 = false := by
  decide
